import Mathlib

/-!
Verification of the `useMediaRecorder` hook (src/index.js) against its
natural-language specification.

The hook is a finite-state controller over two host capabilities: a stream
source (getUserMedia / getDisplayMedia / a caller-supplied stream) and an
encoder (MediaRecorder).  We embed the controller state and each operation of
src/index.js as pure Lean functions.  Host calls that produce observable
side effects (creating an encoder, invoking `start`/`stop` on it, invoking the
user callbacks, stopping media tracks) are recorded in an explicit effect log,
so theorems can count invocations.  The asynchronous stream acquisition is
modelled by passing its eventual result (`Except ErrorInfo MediaStream`) as an
explicit parameter; the `await` suspension point is kept visible by splitting
`getMediaStream` into the synchronous prefix that runs before the await and
the continuation that runs after it.
-/

namespace UseMediaRecorder

/-- The `status` state variable of the hook (src/index.js line 95 and the
doc comment at line 63). -/
inductive Status where
  | idle
  | acquiring_media
  | ready
  | recording
  | paused
  | stopping
  | stopped
  | failed
deriving DecidableEq, Repr

/-- Kind of a media track inside a `MediaStream`. -/
inductive TrackKind where
  | audio
  | video
deriving DecidableEq, Repr

/-- A media track: its kind and its mutable `enabled` flag.  `id` distinguishes
tracks of the same kind. -/
structure MediaTrack where
  id : Nat
  kind : TrackKind
  enabled : Bool
deriving DecidableEq, Repr

/-- A stream is its list of tracks, in order. -/
abbrev MediaStream := List MediaTrack

/-- `stream.getAudioTracks()`. -/
def getAudioTracks (s : MediaStream) : List MediaTrack :=
  s.filter (fun t => t.kind = TrackKind.audio)

/-- `stream.getVideoTracks()`. -/
def getVideoTracks (s : MediaStream) : List MediaTrack :=
  s.filter (fun t => t.kind = TrackKind.video)

/-- A data chunk delivered by the encoder (`e.data` in `handleDataAvailable`):
its byte size and mime type. -/
structure BlobChunk where
  size : Nat
  type : String
deriving DecidableEq, Repr

/-- The finalized blob built in `handleStop`: the concatenated chunks and the
mime type from the blob property bag. -/
structure BlobData where
  parts : List BlobChunk
  type : String
deriving DecidableEq, Repr

/-- A caught error (`err` / `e.error` in src/index.js). -/
structure ErrorInfo where
  message : String
deriving DecidableEq, Repr

/-- The configuration object destructured at src/index.js lines 81-91, reduced
to the fields the controller logic reads.  `blobOptionsType` is the `type`
field of `blobOptions` when the caller supplied one (`Object.assign` makes any
other shape of `blobOptions` irrelevant to the blob's type). -/
structure HookConfig where
  blobOptionsType : Option String
  customMediaStream : Option MediaStream
deriving DecidableEq, Repr

/-- The mutable state of one hook instance: the refs `mediaChunks`,
`mediaStream`, `mediaRecorder` and the state cells `status`, `errorCache`,
`mediaBlobCache`, `isAudioMutedCache` (src/index.js lines 92-98).
`mediaRecorder` is modelled as the count of encoders created so far paired
with whether one is currently held (`Option Nat` holding the encoder's
creation index); the claims only need existence and freshness. -/
structure HookState where
  mediaChunks : List BlobChunk
  mediaStream : Option MediaStream
  mediaRecorder : Option Nat
  recordersCreated : Nat
  status : Status
  errorCache : Option ErrorInfo
  mediaBlobCache : Option BlobData
  isAudioMutedCache : Bool
deriving DecidableEq, Repr

/-- The initial state of the hook (the `useRef`/`useState` initializers at
src/index.js lines 92-98). -/
def initialState : HookState :=
  { mediaChunks := []
    mediaStream := none
    mediaRecorder := none
    recordersCreated := 0
    status := Status.idle
    errorCache := none
    mediaBlobCache := none
    isAudioMutedCache := false }

/-- Observable side effects of the controller on its collaborators: encoder
lifecycle calls, user callbacks, and `track.stop()` calls. -/
inductive Effect where
  | encoderCreated (index : Nat)
  | encoderStart (timeSlice : Option Nat)
  | encoderStop
  | callOnStart
  | callOnStop (blob : BlobData)
  | callOnDataAvailable (chunk : BlobChunk)
  | callOnError (e : ErrorInfo)
  | trackStop (t : MediaTrack)
deriving DecidableEq, Repr

/-- Recognizer for `onStop` callback effects. -/
def Effect.isOnStop : Effect → Bool
  | Effect.callOnStop _ => true
  | _ => false

/-- Recognizer for `onDataAvailable` callback effects. -/
def Effect.isOnDataAvailable : Effect → Bool
  | Effect.callOnDataAvailable _ => true
  | _ => false

/-- Recognizer for encoder `start` invocations. -/
def Effect.isEncoderStart : Effect → Bool
  | Effect.encoderStart _ => true
  | _ => false

/-- Recognizer for `MediaRecorder` constructions. -/
def Effect.isEncoderCreated : Effect → Bool
  | Effect.encoderCreated _ => true
  | _ => false

/-- The synchronous prefix of `getMediaStream` (src/index.js lines 100-105):
clear a previously cached error, then set status to `acquiring_media`.  This is
the state observable at the `await` suspension point. -/
def getMediaStreamBegin (s : HookState) : HookState :=
  let s := if s.errorCache.isSome then { s with errorCache := none } else s
  { s with status := Status.acquiring_media }

/-- The rest of `getMediaStream` (src/index.js lines 106-138): if a
`customMediaStream` was configured, bind it and return early (note: no status
update); otherwise bind the stream source's result on success
(status `ready`) or cache the error on failure (status `failed`).  `acq` is
the eventual result of the awaited `getDisplayMedia`/`getUserMedia` calls,
including the screen+audio track merge at lines 123-131. -/
def getMediaStreamFinish (cfg : HookConfig) (acq : Except ErrorInfo MediaStream)
    (s : HookState) : HookState :=
  match cfg.customMediaStream with
  | some cs => { s with mediaStream := some cs }
  | none =>
    match acq with
    | Except.ok stream =>
        { s with mediaStream := some stream, status := Status.ready }
    | Except.error err =>
        { s with errorCache := some err, status := Status.failed }

/-- `getMediaStream` in full (src/index.js lines 100-139). -/
def getMediaStream (cfg : HookConfig) (acq : Except ErrorInfo MediaStream)
    (s : HookState) : HookState :=
  getMediaStreamFinish cfg acq (getMediaStreamBegin s)

/-- `clearMediaStream` (src/index.js lines 141-146): when a stream is held,
stop each of its tracks in order and discard the handle; otherwise do
nothing.  No status update occurs in either branch. -/
def clearMediaStream (s : HookState) : HookState × List Effect :=
  match s.mediaStream with
  | some stream =>
      ({ s with mediaStream := none }, stream.map Effect.trackStop)
  | none => (s, [])

/-- `handleDataAvailable` (src/index.js lines 176-181): append the chunk to
`mediaChunks` only when its size is nonzero, then always invoke
`onDataAvailable` with the raw chunk. -/
def handleDataAvailable (s : HookState) (c : BlobChunk) : HookState × List Effect :=
  let s := if c.size != 0 then { s with mediaChunks := s.mediaChunks ++ [c] } else s
  (s, [Effect.callOnDataAvailable c])

/-- `handleStop` (src/index.js lines 183-194): destructure the first
accumulated chunk, build the blob property bag `{ type: sampleChunk.type }`
overridden by the configured `blobOptions`, build the blob, cache it, set
status `stopped`, invoke `onStop`.  When `mediaChunks` is empty the
destructuring yields `undefined` and `sampleChunk.type` throws; the embedding
returns `none` for that crash. -/
def handleStop (cfg : HookConfig) (s : HookState) : Option (HookState × List Effect) :=
  match s.mediaChunks with
  | [] => none
  | sampleChunk :: _ =>
      let bagType := cfg.blobOptionsType.getD sampleChunk.type
      let blob : BlobData := { parts := s.mediaChunks, type := bagType }
      some ({ s with mediaBlobCache := some blob, status := Status.stopped },
            [Effect.callOnStop blob])

/-- `handleError` (src/index.js lines 196-200): cache the error, set status to
`idle`, invoke `onError`. -/
def handleError (s : HookState) (e : ErrorInfo) : HookState × List Effect :=
  ({ s with errorCache := some e, status := Status.idle },
   [Effect.callOnError e])

/-- The track update performed by `muteAudio`'s
`getAudioTracks().forEach(t => t.enabled = b)` loop: set `enabled := b` on
every audio track, leave video tracks as they are. -/
def setAudioTracksEnabled (b : Bool) (stream : MediaStream) : MediaStream :=
  stream.map (fun t =>
    if t.kind = TrackKind.audio then { t with enabled := b } else t)

/-- `muteAudio` (src/index.js lines 202-210): cache the flag and, when a
stream is held, set `enabled := !mute` on each of its audio tracks (video
tracks are not touched). -/
def muteAudio (s : HookState) (mute : Bool) : HookState :=
  let s := { s with isAudioMutedCache := mute }
  match s.mediaStream with
  | some stream =>
      { s with mediaStream := some (setAudioTracksEnabled (!mute) stream) }
  | none => s

/-- `startRecording` (src/index.js lines 148-174): clear a cached error,
acquire a stream when none is held (awaiting `getMediaStream`), reset
`mediaChunks`, and — whenever a stream is then held — construct a fresh
`MediaRecorder`, register the three handlers, invoke its `start(timeSlice)`,
set status `recording` and invoke `onStart`.  There is no guard on the current
status. -/
def startRecording (cfg : HookConfig) (acq : Except ErrorInfo MediaStream)
    (timeSlice : Option Nat) (s : HookState) : HookState × List Effect :=
  let s := if s.errorCache.isSome then { s with errorCache := none } else s
  let s := if s.mediaStream.isNone then getMediaStream cfg acq s else s
  let s := { s with mediaChunks := [] }
  match s.mediaStream with
  | some _ =>
      let idx := s.recordersCreated
      ({ s with mediaRecorder := some idx
                recordersCreated := s.recordersCreated + 1
                status := Status.recording },
       [Effect.encoderCreated idx, Effect.encoderStart timeSlice, Effect.callOnStart])
  | none => (s, [])

/-- `clearMediaBlob` (src/index.js lines 243-245). -/
def clearMediaBlob (s : HookState) : HookState :=
  { s with mediaBlobCache := none }

/-- The `liveStream` field of the returned object (src/index.js line 291):
it is the raw `mediaStream.current` ref, unchanged. -/
def liveStream (s : HookState) : Option MediaStream :=
  s.mediaStream

/-- Modelled from the spec (section 4.1, `liveStream`): "if a StreamHandle
exists, returns a muted/video-only view constructed fresh from the stream's
video tracks ...; otherwise null", i.e.
`new MediaStream(mediaStream.current.getVideoTracks())`.  Used only to compare
the spec's description with the code's actual `liveStream`. -/
def liveStreamSpec (s : HookState) : Option MediaStream :=
  match s.mediaStream with
  | some stream => some (getVideoTracks stream)
  | none => none

/-- Delivery of a sequence of `dataavailable` events to the registered
handler, in order (the encoder emits chunks one at a time; §5 of the spec
guarantees in-order delivery). -/
def processDeliveries (s : HookState) : List BlobChunk → HookState × List Effect
  | [] => (s, [])
  | c :: rest =>
      let r1 := handleDataAvailable s c
      let r2 := processDeliveries r1.1 rest
      (r2.1, r1.2 ++ r2.2)

/-- `stopRecording` (src/index.js lines 226-241): when a recorder is held, set
status `stopping`, invoke the encoder's `stop()`, unregister the handlers,
drop the recorder and release the stream via `clearMediaStream`.  The
encoder's `stop` event is delivered synchronously inside `stop()` — before the
listeners are removed — which is the delivery semantics of the repo's own test
harness (src/index.test.js lines 74-81), so `handleStop` runs here; its crash
on an empty chunk list propagates as `none`.  With no recorder held the call
is a no-op. -/
def stopRecording (cfg : HookConfig) (s : HookState) : Option (HookState × List Effect) :=
  match s.mediaRecorder with
  | some _ =>
      let s := { s with status := Status.stopping }
      match handleStop cfg s with
      | none => none
      | some r1 =>
          let s2 := { r1.1 with mediaRecorder := none }
          let r2 := clearMediaStream s2
          some (r2.1, (Effect.encoderStop :: r1.2) ++ r2.2)
  | none => some (s, [])

/-- One full recording session: `startRecording`, a sequence of chunk
deliveries, then `stopRecording` (whose encoder-stop event drives
`handleStop`).  The effect log concatenates the logs of the three phases in
order. -/
def recordStopPair (cfg : HookConfig) (acq : Except ErrorInfo MediaStream)
    (timeSlice : Option Nat) (deliveries : List BlobChunk) (s : HookState) :
    Option (HookState × List Effect) :=
  let r1 := startRecording cfg acq timeSlice s
  let r2 := processDeliveries r1.1 deliveries
  match stopRecording cfg r2.1 with
  | none => none
  | some r3 => some (r3.1, r1.2 ++ r2.2 ++ r3.2)

section SharedLemmas

/-- `startRecording` from a state that already holds a stream: no acquisition
runs, the chunk buffer is reset, a fresh encoder is constructed and started,
and `onStart` is invoked. -/
theorem startRecording_with_stream (cfg : HookConfig)
    (acq : Except ErrorInfo MediaStream) (ts : Option Nat) (s : HookState)
    (stream : MediaStream) (hs : s.mediaStream = some stream) :
    startRecording cfg acq ts s =
      ({ s with errorCache := none
                mediaChunks := []
                mediaRecorder := some s.recordersCreated
                recordersCreated := s.recordersCreated + 1
                status := Status.recording },
       [Effect.encoderCreated s.recordersCreated, Effect.encoderStart ts,
        Effect.callOnStart]) := by
  cases h : s.errorCache <;>
    simp [startRecording, h, hs]

/-- `processDeliveries` only appends the non-empty chunks to the buffer and
emits one `onDataAvailable` callback per delivered chunk, in order. -/
theorem processDeliveries_spec (ds : List BlobChunk) (s : HookState) :
    processDeliveries s ds =
      ({ s with mediaChunks := s.mediaChunks ++ ds.filter (fun c => c.size != 0) },
       ds.map Effect.callOnDataAvailable) := by
  induction ds generalizing s with
  | nil => simp [processDeliveries]
  | cons c rest ih =>
      by_cases h : c.size = 0
      · simp [processDeliveries, handleDataAvailable, h, ih]
      · simp [processDeliveries, handleDataAvailable, h, ih]

/-- A list of `onDataAvailable` callback effects contains no `onStop`
effect. -/
theorem countP_isOnStop_comp_onData (ds : List BlobChunk) :
    ds.countP (Effect.isOnStop ∘ Effect.callOnDataAvailable) = 0 := by
  induction ds with
  | nil => rfl
  | cons c rest ih => simp [List.countP_cons, ih, Effect.isOnStop]

/-- A list of `trackStop` effects contains no `onStop` effect. -/
theorem countP_isOnStop_comp_trackStop (l : List MediaTrack) :
    l.countP (Effect.isOnStop ∘ Effect.trackStop) = 0 := by
  induction l with
  | nil => rfl
  | cons t rest ih => simp [List.countP_cons, ih, Effect.isOnStop]

/-- Toggling the audio tracks' enabled flag does not change the video
tracks. -/
theorem getVideoTracks_setAudioTracksEnabled (b : Bool) (l : MediaStream) :
    getVideoTracks (setAudioTracksEnabled b l) = getVideoTracks l := by
  induction l with
  | nil => rfl
  | cons t rest ih =>
      obtain ⟨i, kind, en⟩ := t
      cases kind <;> simp [getVideoTracks, setAudioTracksEnabled, List.filter_cons] at ih ⊢ <;>
        simpa [getVideoTracks, setAudioTracksEnabled] using ih

/-- Disabling then re-enabling the audio tracks restores a stream whose audio
tracks were all enabled. -/
theorem setAudioTracksEnabled_restore (l : MediaStream)
    (h : ∀ t ∈ l, t.kind = TrackKind.audio → t.enabled = true) :
    setAudioTracksEnabled true (setAudioTracksEnabled false l) = l := by
  induction l with
  | nil => rfl
  | cons t rest ih =>
      have ht := h t (List.mem_cons_self t rest)
      have hrest : ∀ t ∈ rest, t.kind = TrackKind.audio → t.enabled = true :=
        fun u hu => h u (List.mem_cons_of_mem t hu)
      obtain ⟨i, kind, en⟩ := t
      cases kind with
      | audio =>
          have : en = true := ht rfl
          subst this
          simpa [setAudioTracksEnabled] using ih hrest
      | video =>
          simpa [setAudioTracksEnabled] using ih hrest

end SharedLemmas

section Fixtures

/-- A concrete enabled audio track. -/
def audioTrackEx : MediaTrack := { id := 0, kind := TrackKind.audio, enabled := true }

/-- A concrete enabled video track. -/
def videoTrackEx : MediaTrack := { id := 1, kind := TrackKind.video, enabled := true }

/-- A concrete stream with one audio and one video track. -/
def streamEx : MediaStream := [audioTrackEx, videoTrackEx]

/-- The default configuration: no `blobOptions` type override, no
`customMediaStream`. -/
def cfgDefault : HookConfig := { blobOptionsType := none, customMediaStream := none }

/-- Configuration with a caller-supplied `customMediaStream`. -/
def cfgCustom : HookConfig := { blobOptionsType := none, customMediaStream := some streamEx }

/-- A successful stream-source acquisition. -/
def acqOkEx : Except ErrorInfo MediaStream := Except.ok streamEx

/-- A failed stream-source acquisition (e.g. permission denied). -/
def acqFailEx : Except ErrorInfo MediaStream :=
  Except.error { message := "PermissionDenied" }

/-- The state after a successful `getMediaStream` from the initial state:
status `ready`, stream held. -/
def readyState : HookState := getMediaStream cfgDefault acqOkEx initialState

/-- A concrete non-empty chunk of size 4. -/
def chunkEx1 : BlobChunk := { size := 4, type := "video/webm" }

/-- A concrete empty chunk. -/
def chunkEx2 : BlobChunk := { size := 0, type := "video/webm" }

/-- A concrete non-empty chunk of size 10. -/
def chunkEx3 : BlobChunk := { size := 10, type := "video/webm" }

end Fixtures

/-- C1: the claim says `startRecording` while already `recording` is a no-op
that creates no second encoder and yields exactly one encoder-start
invocation.  The code has no status guard: evaluated at a concrete
already-recording state, a second `startRecording` constructs a second
`MediaRecorder` and invokes `start` a second time (two `encoderCreated` and
two `encoderStart` effects across the pair of calls), contradicting the
repo's own test `should not allow startRecording when already recording`
(src/index.test.js lines 300-330, which requires `start` to have been called
exactly once). -/
theorem C1_second_startRecording_starts_encoder_again :
    (startRecording cfgDefault acqFailEx none readyState).1.status = Status.recording ∧
    ((startRecording cfgDefault acqFailEx none readyState).2 ++
        (startRecording cfgDefault acqFailEx none
          (startRecording cfgDefault acqFailEx none readyState).1).2).countP
        Effect.isEncoderStart = 2 ∧
    ((startRecording cfgDefault acqFailEx none readyState).2 ++
        (startRecording cfgDefault acqFailEx none
          (startRecording cfgDefault acqFailEx none readyState).1).2).countP
        Effect.isEncoderCreated = 2 := by
  decide

/-- C2 counterexample: the claim says an encoder error event sets status to
`failed`; `handleError` (src/index.js line 198) sets it to `idle`.  At a
concrete `ready` state the error is stored and `onError` invoked, but the
resulting status is `idle`, not `failed`. -/
theorem C2_error_event_status_is_idle_not_failed :
    (handleError readyState { message := "UnknownError" }).1.errorCache
        = some { message := "UnknownError" } ∧
    (handleError readyState { message := "UnknownError" }).2
        = [Effect.callOnError { message := "UnknownError" }] ∧
    (handleError readyState { message := "UnknownError" }).1.status = Status.idle ∧
    ¬ (handleError readyState { message := "UnknownError" }).1.status = Status.failed := by
  decide

/-- C2 amended: when the encoder reports an error event, the controller
stores the ErrorInfo in the error field, sets status to `idle` (not
`failed`), and invokes the `onError` callback. -/
theorem C2_error_event_stores_error_sets_idle_calls_onError
    (s : HookState) (e : ErrorInfo) :
    (handleError s e).1.errorCache = some e ∧
    (handleError s e).1.status = Status.idle ∧
    (handleError s e).2 = [Effect.callOnError e] := by
  simp [handleError]

/-- C3 counterexample: the claim says `liveStream` is a freshly constructed
video-only view and never the raw StreamHandle.  At a concrete state holding
a stream with an audio track, `liveStream` returns exactly the raw stream
(audio track included) and differs from the spec-modelled video-only view. -/
theorem C3_liveStream_is_raw_handle_not_video_only :
    liveStream readyState = some streamEx ∧
    getAudioTracks streamEx = [audioTrackEx] ∧
    ¬ liveStream readyState = liveStreamSpec readyState := by
  decide

/-- C3 amended: reading `liveStream` returns the raw held StreamHandle
itself (audio tracks included, no reconstruction) when one is held, and null
when no stream is held. -/
theorem C3_liveStream_returns_raw_handle (s : HookState) :
    (∀ stream, s.mediaStream = some stream → liveStream s = some stream) ∧
    (s.mediaStream = none → liveStream s = none) := by
  exact ⟨fun stream h => by simp [liveStream, h], fun h => by simp [liveStream, h]⟩

/-- C3 witness: the amended statement applied at the concrete ready state and
at the initial state. -/
theorem C3_liveStream_returns_raw_handle_witness :
    liveStream readyState = some streamEx ∧ liveStream initialState = none :=
  ⟨(C3_liveStream_returns_raw_handle readyState).1 streamEx (by decide),
   (C3_liveStream_returns_raw_handle initialState).2 rfl⟩

/-- C5: the claim says `clearMediaStream` from a `ready` state stops every
track, discards the handle, and returns the status to `idle`.  Evaluated at a
concrete `ready` state the code stops the tracks in order and discards the
handle, and a second call is a no-op, but the status stays `ready` — it is
never reset to `idle`, contradicting the repo's own test `should clear media
stream and reset to idle status` (src/index.test.js lines 526-550). -/
theorem C5_clearMediaStream_does_not_reset_status :
    (clearMediaStream readyState).1.mediaStream = none ∧
    (clearMediaStream readyState).2
        = [Effect.trackStop audioTrackEx, Effect.trackStop videoTrackEx] ∧
    clearMediaStream (clearMediaStream readyState).1
        = ((clearMediaStream readyState).1, []) ∧
    (clearMediaStream readyState).1.status = Status.ready ∧
    ¬ (clearMediaStream readyState).1.status = Status.idle := by
  decide

/-- C6 counterexample: the claim says every successful acquisition — custom
pre-acquired stream included — ends with status `ready`.  With a
`customMediaStream` configured, `getMediaStream` returns early after binding
the stream (src/index.js lines 106-109): the status is left at
`acquiring_media` and never reaches `ready`, even though the stream is held. -/
theorem C6_custom_stream_left_at_acquiring_media :
    (getMediaStream cfgCustom acqOkEx initialState).mediaStream = some streamEx ∧
    (getMediaStream cfgCustom acqOkEx initialState).status = Status.acquiring_media ∧
    ¬ (getMediaStream cfgCustom acqOkEx initialState).status = Status.ready := by
  decide

/-- C6 amended: `getMediaStream` always first moves the status to
`acquiring_media`; when no custom stream is configured and the stream source
succeeds it ends at `ready` with the StreamHandle stored; when a custom
pre-acquired stream is configured, the stream is bound but the status remains
`acquiring_media` (it never reaches `ready`). -/
theorem C6_acquisition_status_transitions (cfg : HookConfig)
    (acq : Except ErrorInfo MediaStream) (s : HookState) :
    (getMediaStreamBegin s).status = Status.acquiring_media ∧
    (∀ stream, cfg.customMediaStream = none → acq = Except.ok stream →
      (getMediaStream cfg acq s).status = Status.ready ∧
      (getMediaStream cfg acq s).mediaStream = some stream) ∧
    (∀ cs, cfg.customMediaStream = some cs →
      (getMediaStream cfg acq s).mediaStream = some cs ∧
      (getMediaStream cfg acq s).status = Status.acquiring_media) := by
  refine ⟨rfl, ?_, ?_⟩
  · intro stream hc ha
    simp [getMediaStream, getMediaStreamFinish, getMediaStreamBegin, hc, ha]
  · intro cs hc
    simp [getMediaStream, getMediaStreamFinish, getMediaStreamBegin, hc]

/-- C6 witness: the amended statement applied to a concrete successful
source acquisition and to a concrete custom-stream configuration. -/
theorem C6_acquisition_status_transitions_witness :
    (getMediaStream cfgDefault acqOkEx initialState).status = Status.ready ∧
    (getMediaStream cfgDefault acqOkEx initialState).mediaStream = some streamEx ∧
    (getMediaStream cfgCustom acqOkEx initialState).mediaStream = some streamEx :=
  ⟨((C6_acquisition_status_transitions cfgDefault acqOkEx initialState).2.1
      streamEx rfl rfl).1,
   ((C6_acquisition_status_transitions cfgDefault acqOkEx initialState).2.1
      streamEx rfl rfl).2,
   ((C6_acquisition_status_transitions cfgCustom acqOkEx initialState).2.2
      streamEx rfl).1⟩

/-- C7: `handleStop` reads the first accumulated chunk to derive the blob's
mime type; with zero accumulated chunks that read is undefined/crashing
behavior (modelled as `none`).  The stop handler succeeds exactly when the
chunk buffer is non-empty — and the buffer only ever receives non-empty
chunks, so this is the precondition that at least one non-empty chunk
arrived. -/
theorem C7_handleStop_total_iff_chunk_arrived (cfg : HookConfig) (s : HookState) :
    (handleStop cfg s).isSome ↔ ¬ s.mediaChunks = [] := by
  cases h : s.mediaChunks <;> simp [handleStop, h]

/-- C10: `startRecording` from a state with no stream held, when the
internally triggered acquisition fails: no encoder is created, neither the
encoder's `start` nor `onStart` is invoked (empty effect log, `mediaRecorder`
and `recordersCreated` unchanged), the status ends at `failed`, the chunk
buffer is reset to empty, and any previously stored error was cleared — the
stored error afterwards is exactly the fresh acquisition error. -/
theorem C10_failed_acquisition_leaves_failed_but_resets
    (cfg : HookConfig) (err : ErrorInfo) (ts : Option Nat) (s : HookState)
    (hs : s.mediaStream = none) (hc : cfg.customMediaStream = none) :
    startRecording cfg (Except.error err) ts s =
      ({ s with errorCache := some err
                mediaChunks := []
                status := Status.failed }, []) := by
  cases h : s.errorCache <;>
    simp [startRecording, getMediaStream, getMediaStreamBegin,
      getMediaStreamFinish, h, hs, hc]

/-- C10 witness: applied at a concrete state that holds a stale error and
stale chunks, with a concrete failing acquisition. -/
theorem C10_failed_acquisition_witness :
    startRecording cfgDefault acqFailEx none
        { initialState with errorCache := some { message := "old" }
                            mediaChunks := [chunkEx1]
                            status := Status.failed } =
      ({ initialState with errorCache := some { message := "PermissionDenied" }
                           mediaChunks := []
                           status := Status.failed }, []) :=
  C10_failed_acquisition_leaves_failed_but_resets cfgDefault
    { message := "PermissionDenied" } none
    { initialState with errorCache := some { message := "old" }
                        mediaChunks := [chunkEx1]
                        status := Status.failed } rfl rfl

/-- C8: for every delivery sequence, `onDataAvailable` fires once per
delivered chunk, in delivery order (empty chunks included), while the
accumulated buffer receives exactly the non-empty chunks in order; in
particular for deliveries of sizes [4, 0, 10] the callback fires three times
and the buffer holds the first and third chunks. -/
theorem C8_onDataAvailable_all_buffer_nonempty (s : HookState) (ds : List BlobChunk) :
    (processDeliveries s ds).2 = ds.map Effect.callOnDataAvailable ∧
    (processDeliveries s ds).2.countP Effect.isOnDataAvailable = ds.length ∧
    (processDeliveries s ds).1.mediaChunks
        = s.mediaChunks ++ ds.filter (fun c => c.size != 0) ∧
    (processDeliveries initialState [chunkEx1, chunkEx2, chunkEx3]).1.mediaChunks
        = [chunkEx1, chunkEx3] ∧
    (processDeliveries initialState [chunkEx1, chunkEx2, chunkEx3]).2.countP
        Effect.isOnDataAvailable = 3 := by
  refine ⟨?_, ?_, ?_, by decide, by decide⟩ <;>
    simp [processDeliveries_spec, List.countP_map, Function.comp,
      Effect.isOnDataAvailable]

/-- C4: one `startRecording`/`stopRecording` pair with at least one non-empty
chunk delivered invokes `onStop` exactly once, with the finalized blob; the
blob holds the non-empty chunks in order and its mime type is the configured
`blobOptions` override when present, else the first accumulated chunk's
type. -/
theorem C4_onStop_exactly_once_with_mime (cfg : HookConfig)
    (acq : Except ErrorInfo MediaStream) (ts : Option Nat)
    (deliveries : List BlobChunk) (s : HookState) (stream : MediaStream)
    (hs : s.mediaStream = some stream)
    (firstc : BlobChunk) (rest : List BlobChunk)
    (hf : deliveries.filter (fun c => c.size != 0) = firstc :: rest) :
    ∃ s2 effs, recordStopPair cfg acq ts deliveries s = some (s2, effs) ∧
      effs.countP Effect.isOnStop = 1 ∧
      s2.mediaBlobCache = some { parts := firstc :: rest,
                                 type := cfg.blobOptionsType.getD firstc.type } ∧
      Effect.callOnStop { parts := firstc :: rest,
                          type := cfg.blobOptionsType.getD firstc.type } ∈ effs := by
  simp only [recordStopPair, startRecording_with_stream cfg acq ts s stream hs,
    processDeliveries_spec, List.nil_append, hf, stopRecording, handleStop,
    clearMediaStream, hs]
  refine ⟨_, _, rfl, ?_, rfl, ?_⟩
  · simp [List.countP_append, List.countP_cons, List.countP_map,
      countP_isOnStop_comp_onData, countP_isOnStop_comp_trackStop, Effect.isOnStop]
  · simp

/-- C4 witness: the theorem applied to a concrete ready state with deliveries
of sizes [4, 0, 10] and no blob-type override. -/
theorem C4_onStop_exactly_once_with_mime_witness :
    ∃ s2 effs,
      recordStopPair cfgDefault acqFailEx none [chunkEx1, chunkEx2, chunkEx3]
          readyState = some (s2, effs) ∧
      effs.countP Effect.isOnStop = 1 ∧
      s2.mediaBlobCache = some { parts := [chunkEx1, chunkEx3], type := "video/webm" } ∧
      Effect.callOnStop { parts := [chunkEx1, chunkEx3], type := "video/webm" } ∈ effs :=
  C4_onStop_exactly_once_with_mime cfgDefault acqFailEx none
    [chunkEx1, chunkEx2, chunkEx3] readyState streamEx (by decide)
    chunkEx1 [chunkEx3] (by decide)

/-- C9: with a stream held whose audio tracks are all enabled,
`muteAudio()` followed by `unMuteAudio()` (i.e. `muteAudio true` then
`muteAudio false`, src/index.js lines 289-290) restores `isAudioMuted` to
false, restores every audio track's enabled flag to true (the stream is
restored exactly), and leaves the video tracks untouched throughout. -/
theorem C9_mute_unmute_roundtrip (s : HookState) (stream : MediaStream)
    (hs : s.mediaStream = some stream)
    (hen : ∀ t ∈ stream, t.kind = TrackKind.audio → t.enabled = true) :
    (muteAudio (muteAudio s true) false).isAudioMutedCache = false ∧
    (muteAudio (muteAudio s true) false).mediaStream = some stream ∧
    (∀ st1, (muteAudio s true).mediaStream = some st1 →
      getVideoTracks st1 = getVideoTracks stream) ∧
    (∀ st2, (muteAudio (muteAudio s true) false).mediaStream = some st2 →
      getVideoTracks st2 = getVideoTracks stream ∧
      ∀ t ∈ getAudioTracks st2, t.enabled = true) := by
  have hround := setAudioTracksEnabled_restore stream hen
  refine ⟨?_, ?_, ?_, ?_⟩
  · simp [muteAudio, hs]
  · simp [muteAudio, hs, hround]
  · intro st1 h1
    simp only [muteAudio, hs] at h1
    obtain rfl : setAudioTracksEnabled false stream = st1 := by
      simpa using h1
    exact getVideoTracks_setAudioTracksEnabled false stream
  · intro st2 h2
    simp only [muteAudio, hs] at h2
    obtain rfl : stream = st2 := by
      simpa [hround] using h2
    refine ⟨rfl, ?_⟩
    intro t htmem
    have := List.mem_filter.mp htmem
    exact hen t this.1 (by simpa using this.2)

/-- C9 witness: the theorem applied at the concrete ready state whose stream
has one enabled audio track and one enabled video track. -/
theorem C9_mute_unmute_roundtrip_witness :
    (muteAudio (muteAudio readyState true) false).isAudioMutedCache = false ∧
    (muteAudio (muteAudio readyState true) false).mediaStream = some streamEx :=
  ⟨(C9_mute_unmute_roundtrip readyState streamEx (by decide) (by decide)).1,
   (C9_mute_unmute_roundtrip readyState streamEx (by decide) (by decide)).2.1⟩

end UseMediaRecorder
